import Mathlib

/-!
Shallow embedding of the URL shortener service (`main.go`) and proofs about
its in-memory cache, subnet rate limiter, expiry lifecycle and handlers.

Modelling conventions:
* Go `time.Time` / `time.Duration` values are `Int` nanosecond counts
  (Go durations are int64 nanoseconds); the Go zero `time.Time` used as the
  "no cooldown" sentinel (tested only through `IsZero`) is `Option.none`.
* Go maps are association lists where an insert conses the new binding and
  lookups take the first match, and a delete removes the key's bindings.
* The MongoDB collection is a list of `URLData` documents; each fallible
  collection call is given its outcome (`Except`/`Bool` parameter) so that
  both the success and the error control paths of the Go code are modelled.
-/

namespace UrlShortener

/-- Go `time.Second` in nanoseconds. -/
def nsPerSecond : Int := 1000000000

/-- Go `time.Minute` in nanoseconds. -/
def oneMinute : Int := 60 * nsPerSecond

/-- Go `time.Hour` in nanoseconds. -/
def oneHour : Int := 60 * oneMinute

/-- Go `24 * time.Hour` in nanoseconds. -/
def oneDay : Int := 24 * oneHour

/-- Go constant `maxURLsPerSubnet = 10` (compared against Go `int` counts). -/
def maxURLsPerSubnet : Int := 10

/-- Go constant `cooldownHours = 24`. -/
def cooldownHours : Int := 24

/-- Go constant `expiryDays = 365`. -/
def expiryDays : Int := 365

/-- Go struct `RateLimitInfo` (Count, FirstSeen, Cooldown); the zero-valued
cooldown `time.Time` is `none`. -/
structure RateLimitInfo where
  Count : Int
  FirstSeen : Int
  Cooldown : Option Int
deriving Repr, DecidableEq

/-- Go condition `!info.Cooldown.IsZero() && now.Before(info.Cooldown)`. -/
def cooldownActive : Option Int → Int → Bool
  | none, _ => false
  | some cd, now => decide (now < cd)

/-- Go condition `!info.Cooldown.IsZero() && now.After(info.Cooldown)`. -/
def cooldownElapsed : Option Int → Int → Bool
  | none, _ => false
  | some cd, now => decide (cd < now)

/-- The in-memory branch of Go `checkRateLimit` (the subnet already has a
`rateLimitMap` entry `info0`): window reset after 24h, cooldown check,
cooldown clearing, limit check. Returns (allowed, updated entry). -/
def checkRateLimitMem (info0 : RateLimitInfo) (now : Int) : Bool × RateLimitInfo :=
  let info1 :=
    if oneDay ≤ now - info0.FirstSeen then
      { Count := 0, FirstSeen := now, Cooldown := none }
    else info0
  if cooldownActive info1.Cooldown now then
    (false, info1)
  else
    let info2 :=
      if cooldownElapsed info1.Cooldown now then { info1 with Cooldown := none } else info1
    if maxURLsPerSubnet ≤ info2.Count then
      (false, { info2 with Cooldown := some (now + cooldownHours * oneHour) })
    else
      (true, info2)

/-- Go `checkRateLimit`: uses the in-memory entry when present, otherwise
seeds a fresh entry from the database count of this subnet's creations in
the trailing 24 hours (`dbCount`, whose `Except.error` case is the
`CountDocuments` failure that `checkRateLimit` propagates). -/
def checkRateLimit (mem : Option RateLimitInfo) (dbCount : Except Unit Int) (now : Int) :
    Except Unit (Bool × RateLimitInfo) :=
  match mem with
  | some info => .ok (checkRateLimitMem info now)
  | none =>
    match dbCount with
    | .error e => .error e
    | .ok count =>
      if maxURLsPerSubnet ≤ count then
        .ok (false, { Count := count, FirstSeen := now, Cooldown := some (now + cooldownHours * oneHour) })
      else
        .ok (true, { Count := count, FirstSeen := now, Cooldown := none })

/-- Go `incrementRateLimit`: increments the entry's count (when the subnet is
tracked) and, if the post-increment count reaches the max, sets the cooldown
to `now + cooldownHours` immediately. -/
def incrementRateLimit (mem : Option RateLimitInfo) (now : Int) : Option RateLimitInfo :=
  match mem with
  | none => none
  | some info =>
    let info := { info with Count := info.Count + 1 }
    if maxURLsPerSubnet ≤ info.Count then
      some { info with Cooldown := some (now + cooldownHours * oneHour) }
    else
      some info

/-- One creation attempt's effect on a subnet's rate-limit entry, as
`shortenHandler` sequences it: run `checkRateLimit` (which stores its updated
entry back in the map); when allowed, the creation succeeds and
`incrementRateLimit` commits. Returns (new entry, whether admitted). -/
def rlCreate (mem : Option RateLimitInfo) (dbCount : Except Unit Int) (now : Int) :
    Option RateLimitInfo × Bool :=
  match checkRateLimit mem dbCount now with
  | .error _ => (mem, false)
  | .ok (allowed, info) =>
    if allowed then (incrementRateLimit (some info) now, true)
    else (some info, false)

/-- Go `cleanupRateLimitMap`: drops every subnet entry whose window start is
more than 24 hours old. -/
def cleanupRateLimitMap (m : List (String × RateLimitInfo)) (now : Int) :
    List (String × RateLimitInfo) :=
  m.filter (fun p => ! decide (oneDay < now - p.2.FirstSeen))

/-- Go struct `URLData` (the persisted ShortLink document). -/
structure URLData where
  Original : String
  ShortCode : String
  CreatedAt : Int
  ExpiresAt : Int
  CreatorIP : String
  CreatorSubnet : String
deriving Repr, DecidableEq

/-- Go struct `CacheItem`. -/
structure CacheItem where
  OriginalURL : String
  ExpiresAt : Int
deriving Repr, DecidableEq

/-- The local cache `cache = map[string]CacheItem{}` as an association list;
the first binding for a key is its current value. -/
abbrev Cache := List (String × CacheItem)

/-- Go map read `cache[code]`. -/
def cacheLookup (cache : Cache) (code : String) : Option CacheItem :=
  (List.find? (fun p => p.1 == code) cache).map (fun p => p.2)

/-- Go map write `cache[code] = item` (overwrites any existing binding). -/
def cacheInsert (cache : Cache) (code : String) (item : CacheItem) : Cache :=
  (code, item) :: List.filter (fun p => p.1 != code) cache

/-- Go `delete(cache, code)`. -/
def cacheDelete (cache : Cache) (code : String) : Cache :=
  List.filter (fun p => p.1 != code) cache

/-- The MongoDB collection as a list of documents. -/
abbrev Store := List URLData

/-- Mongo call `col.FindOne(ctx, bson.M\x7b"short_code": code\x7d)`. -/
def storeFindOne (store : Store) (code : String) : Option URLData :=
  List.find? (fun r => r.ShortCode == code) store

/-- Mongo call `col.DeleteOne(ctx, bson.M\x7b"short_code": code\x7d)`: removes the first
matching document. -/
def storeDeleteOne (store : Store) (code : String) : Store :=
  List.eraseP (fun r => r.ShortCode == code) store

/-- Mongo call `col.DeleteMany(ctx, bson.M\x7b"expires_at": bson.M\x7b"$lt": now\x7d\x7d)`. -/
def storeDeleteExpired (store : Store) (now : Int) : Store :=
  List.filter (fun r => ! decide (r.ExpiresAt < now)) store

/-- Mongo call `col.InsertOne`. -/
def storeInsertOne (store : Store) (r : URLData) : Store :=
  store ++ [r]

/-- The body-validation check of `shortenHandler`:
`strings.HasPrefix(body.URL, "http")`. Go compares the first four bytes;
since `"http"` is ASCII and UTF-8 is a prefix code, that equals comparing
the first four characters. -/
def urlAccepted (u : String) : Bool :=
  decide (u.data.take 4 = "http".data)

/-- Outcome of `shortenHandler` after the rate-limit gate admitted the
request: 400 `invalid url`, 500 `database error`, or the 200 created record. -/
inductive ShortenOutcome where
  | badRequest
  | dbError
  | created (rec : URLData)
deriving Repr, DecidableEq

/-- The part of Go `shortenHandler` that runs once `checkRateLimit` allowed
the request: validate the URL by its `"http"` text, build the
`URLData` with a 365-day expiry, insert it into the store (`dbOK` gives the
`InsertOne` outcome), and on success add the cache entry. The generated code
is the `code` argument; no lookup of `code` in the store or cache happens
before the insert. Returns (outcome, store, cache). -/
def shortenStep (dbOK : Bool) (store : Store) (cache : Cache)
    (u code ip subnet : String) (now : Int) : ShortenOutcome × Store × Cache :=
  if urlAccepted u then
    let exp := now + expiryDays * oneDay
    let doc : URLData :=
      { Original := u, ShortCode := code, CreatedAt := now, ExpiresAt := exp,
        CreatorIP := ip, CreatorSubnet := subnet }
    if dbOK then
      (.created doc, storeInsertOne store doc, cacheInsert cache code ⟨u, exp⟩)
    else
      (.dbError, store, cache)
  else
    (.badRequest, store, cache)

/-- HTTP outcome of `redirectHandler`: a 302 `http.Redirect` to the original
URL, or `http.NotFound`. -/
inductive RedirectOutcome where
  | redirect (url : String)
  | notFound
deriving Repr, DecidableEq

/-- The persistent-store phase of `redirectHandler` (everything after the
cache block): `FindOne` by code; unexpired hits are backfilled into the cache
and redirected; expired hits are `DeleteOne`d and 404; misses are 404. -/
def redirectStorePhase (cache : Cache) (store : Store) (code : String) (now : Int) :
    RedirectOutcome × Cache × Store :=
  match storeFindOne store code with
  | some u =>
    if now < u.ExpiresAt then
      (.redirect u.Original, cacheInsert cache code ⟨u.Original, u.ExpiresAt⟩, store)
    else
      (.notFound, cache, storeDeleteOne store code)
  | none => (.notFound, cache, store)

/-- Go `redirectHandler`: cache hit before expiry redirects; an expired cache
hit is deleted and falls through to the store phase; a cache miss goes to the
store phase directly. -/
def redirectHandler (cache : Cache) (store : Store) (code : String) (now : Int) :
    RedirectOutcome × Cache × Store :=
  match cacheLookup cache code with
  | some c =>
    if now < c.ExpiresAt then
      (.redirect c.OriginalURL, cache, store)
    else
      redirectStorePhase (cacheDelete cache code) store code now
  | none => redirectStorePhase cache store code now

/-- Go `listHandler` reads the cache into a fresh `activeItems` map holding
the entries whose expiry is still in the future; it never writes to `cache`,
so the post-state cache is returned unchanged. Returns (items, cache). -/
def listHandler (cache : Cache) (now : Int) : Cache × Cache :=
  (List.filter (fun p => decide (now < p.2.ExpiresAt)) cache, cache)

/-- The state touched by the cleanup tasks. -/
structure CleanupState where
  store : Store
  cache : Cache
  rateLimitMap : List (String × RateLimitInfo)
deriving Repr, DecidableEq

/-- Go `performCleanup`: `DeleteMany` of expired documents, and — only when
that call succeeded (`dbFails = false`) — the sweep of expired cache entries;
on a `DeleteMany` error the function logs and returns at once, so nothing
else runs. `rateLimitMap` is not referenced by `performCleanup` at all (its
sweep, `cleanupRateLimitMap`, is driven by the separate
`startRateLimitCleanup` ticker). -/
def performCleanup (dbFails : Bool) (s : CleanupState) (now : Int) : CleanupState :=
  if dbFails then
    s
  else
    { s with
      store := storeDeleteExpired s.store now,
      cache := List.filter (fun p => ! decide (p.2.ExpiresAt < now)) s.cache }

/-- The constant `letters` of `genCode`. -/
def genLetters : List Char :=
  "abcdefghijklmnopqrstuvwxyzABCDEFGHIJKLMNOPQRSTUVWXYZ".data

/-- The constant `digits` of `genCode`. -/
def genDigits : List Char := "0123456789".data

/-- The constant `allChars = letters + digits` of `genCode` (62 symbols). -/
def genAllChars : List Char := genLetters ++ genDigits

/-- Go `containsLetter`. -/
def containsLetter (s : String) : Bool :=
  s.data.any (fun c => ('a' ≤ c && c ≤ 'z') || ('A' ≤ c && c ≤ 'Z'))

/-- Go `containsDigit`. -/
def containsDigit (s : String) : Bool :=
  s.data.any (fun c => '0' ≤ c && c ≤ '9')

/-- One iteration of the `genCode` loop body: build an `n`-byte string whose
`i`-th character is `allChars[rand.Intn(len(allChars))]`; the draw of the
`i`-th call to `rand.Intn` is modelled as `rnd i % 62`, which ranges over
exactly the indices `rand.Intn(62)` can return. -/
def genAttempt (rnd : Nat → Nat) (n : Nat) : String :=
  String.mk ((List.range n).map (fun i => genAllChars.getD (rnd i % genAllChars.length) 'a'))

/-- Go `genCode`: retry the random draw until the candidate contains at least
one letter and one digit. The unbounded `for` loop consumes one randomness
source per iteration; `none` is the (probability-zero in Go) case where every
supplied iteration was rejected, in which case the Go loop simply has not
returned yet. -/
def genCode (seeds : List (Nat → Nat)) (n : Nat) : Option String :=
  match seeds with
  | [] => none
  | r :: rest =>
    let code := genAttempt r n
    if containsLetter code && containsDigit code then some code
    else genCode rest n

/-- Go `formatDuration` on a duration of `d` nanoseconds. Go truncates
`float64` quotients with `int(d.Hours()/24)`, `int(d.Hours())`,
`int(d.Minutes())`, `int(d.Seconds())`; for `d ≥ 0` these are the integer
quotients of the nanosecond count, modelled here as exact `Int` division. -/
def formatDuration (d : Int) : String :=
  if d < 0 then "0 seconds"
  else
    let days := d / oneDay
    let hours := (d / oneHour) % 24
    let minutes := (d / oneMinute) % 60
    let seconds := (d / nsPerSecond) % 60
    if 0 < days then
      toString days ++ " days " ++ toString hours ++ " hours"
    else if 0 < hours then
      toString hours ++ " hours " ++ toString minutes ++ " minutes"
    else if 0 < minutes then
      toString minutes ++ " minutes " ++ toString seconds ++ " seconds"
    else
      toString seconds ++ " seconds"

/-! Section: `net.ParseIP` and `getClientSubnet`.

Go's `net.ParseIP` wraps `netip.ParseAddr` and rejects any address carrying
a `%` zone. `ParseAddr` dispatches on the first of `.`, `:`, `%` found in
the string: `.` goes to the strict dotted-quad IPv4 parser, `:` to the IPv6
parser, `%` (or no special character at all) fails. A successful parse is
returned in 16-byte form (`As16`), IPv4 results as IPv4-mapped addresses. -/

/-- A decimal digit, as the IPv4 field scanner accepts. -/
def isDecDigit (c : Char) : Bool := '0' ≤ c && c ≤ '9'

/-- Numeric value of a decimal digit character. -/
def decVal (c : Char) : Nat := c.toNat - 48

/-- One field of `parseIPv4Fields`: at least one digit, no leading zero on a
multi-digit field, value at most 255. -/
def parseV4Field (s : List Char) : Option Nat :=
  match s with
  | [] => none
  | c :: cs =>
    if (c :: cs).all isDecDigit then
      if c = '0' ∧ cs ≠ [] then none
      else
        let v := (c :: cs).foldl (fun a d => a * 10 + decVal d) 0
        if v ≤ 255 then some v else none
    else none

/-- Function `netip.parseIPv4`: exactly four `.`-separated decimal fields. Returns the
four octets. -/
def parseIPv4 (s : List Char) : Option (List Nat) :=
  match List.splitOn '.' s with
  | [a, b, c, d] =>
    match parseV4Field a, parseV4Field b, parseV4Field c, parseV4Field d with
    | some a, some b, some c, some d => some [a, b, c, d]
    | _, _, _, _ => none
  | _ => none

/-- A hexadecimal digit, as the IPv6 field scanner accepts. -/
def isHexDigitChar (c : Char) : Bool :=
  ('0' ≤ c && c ≤ '9') || ('a' ≤ c && c ≤ 'f') || ('A' ≤ c && c ≤ 'F')

/-- Numeric value of a hexadecimal digit character. -/
def hexVal (c : Char) : Nat :=
  if '0' ≤ c && c ≤ '9' then c.toNat - 48
  else if 'a' ≤ c && c ≤ 'f' then c.toNat - 87
  else c.toNat - 55

/-- The inlined hex-number scan of `parseIPv6`: consume leading hex digits,
failing (like Go) as soon as the accumulator exceeds `0xFFFF`. Returns
`(value, digit count, rest)`. -/
def scanHexChunk : List Char → Nat → Nat → Option (Nat × Nat × List Char)
  | [], acc, off => some (acc, off, [])
  | c :: cs, acc, off =>
    if isHexDigitChar c then
      let acc := acc * 16 + hexVal c
      if 0xFFFF < acc then none else scanHexChunk cs acc (off + 1)
    else
      some (acc, off, c :: cs)

/-- Post-loop processing of `parseIPv6`: a short byte list needs an ellipsis
to expand (inserting the missing zero bytes at the ellipsis position); a full
16-byte list must not have used `::` at all. -/
def v6Finish (acc : List Nat) (ell : Option Nat) : Option (List Nat) :=
  if acc.length < 16 then
    match ell with
    | none => none
    | some e => some (acc.take e ++ List.replicate (16 - acc.length) 0 ++ acc.drop e)
  else
    match ell with
    | none => some acc
    | some _ => none

/-- The main loop of `netip.parseIPv6`, one fuel per iteration (each
iteration adds two or four of the sixteen bytes, so fuel `16` is never
exhausted): scan a hex field; a field followed by `.` is an embedded IPv4
address parsed from the whole remaining string and ends the loop; otherwise
store the two bytes and consume `:` (or `::`, recorded once as the ellipsis
position), ending when the string or the sixteen bytes run out. -/
def v6Loop (fuel : Nat) (s : List Char) (acc : List Nat) (ell : Option Nat) :
    Option (List Nat) :=
  match fuel with
  | 0 => none
  | fuel + 1 =>
    if 16 ≤ acc.length then
      if s = [] then v6Finish acc ell else none
    else
      match scanHexChunk s 0 0 with
      | none => none
      | some (accv, off, rest) =>
        if off = 0 then none
        else if rest.head? = some '.' then
          if ell = none ∧ acc.length ≠ 12 then none
          else if 16 < acc.length + 4 then none
          else
            match parseIPv4 s with
            | none => none
            | some v4 => v6Finish (acc ++ v4) ell
        else
          let acc := acc ++ [accv / 256, accv % 256]
          match rest with
          | [] => v6Finish acc ell
          | c1 :: s1 =>
            if c1 ≠ ':' then none
            else if s1 = [] then none
            else
              match s1 with
              | [] => none
              | c2 :: s2 =>
                if c2 = ':' then
                  if ell.isSome then none
                  else if s2 = [] then v6Finish acc (some acc.length)
                  else v6Loop fuel s2 acc (some acc.length)
                else v6Loop fuel s1 acc ell

/-- Function `netip.parseIPv6` (with the `%` zone always rejected, as `net.ParseIP`
does): optional leading `::`, then the field loop. -/
def parseIPv6 (s : List Char) : Option (List Nat) :=
  if 2 ≤ s.length ∧ s.getD 0 ' ' = ':' ∧ s.getD 1 ' ' = ':' then
    if s.drop 2 = [] then some (List.replicate 16 0)
    else v6Loop 16 (s.drop 2) [] (some 0)
  else v6Loop 16 s [] none

/-- The 16-byte IPv4-mapped form (`::ffff:a.b.c.d`) that `As16` gives an
IPv4 address. -/
def v4InV6 (v4 : List Nat) : List Nat :=
  List.replicate 10 0 ++ [255, 255] ++ v4

/-- Go `net.ParseIP`: dispatch on the first special character; `none` is the
`nil` result. The result, when present, is the 16-byte `As16` form. -/
def parseIP (s : String) : Option (List Nat) :=
  match List.find? (fun c => c = '.' || c = ':' || c = '%') s.data with
  | some c =>
    if c = '.' then (parseIPv4 s.data).map v4InV6
    else if c = ':' then parseIPv6 s.data
    else none
  | none => none

/-- Go `IP.To4`: a 4-byte address itself, the last four bytes of a 16-byte
IPv4-mapped address, otherwise `nil`. -/
def ipTo4 (ip : List Nat) : Option (List Nat) :=
  if ip.length = 4 then some ip
  else if ip.length = 16 ∧ ip.take 10 = List.replicate 10 0
          ∧ ip.getD 10 0 = 255 ∧ ip.getD 11 0 = 255 then
    some (ip.drop 12)
  else none

/-- Go `IP.To16`. -/
def ipTo16 (ip : List Nat) : Option (List Nat) :=
  if ip.length = 4 then some (v4InV6 ip)
  else if ip.length = 16 then some ip
  else none

/-- Format `fmt.Sprintf("%d.%d.%d.0/24", ipv4[0], ipv4[1], ipv4[2])`. -/
def formatV4Subnet (v4 : List Nat) : String :=
  toString (v4.getD 0 0) ++ "." ++ toString (v4.getD 1 0) ++ "."
    ++ toString (v4.getD 2 0) ++ ".0/24"

/-- One lowercase hexadecimal digit. -/
def hexDigitChar (n : Nat) : Char :=
  if n < 10 then Char.ofNat (48 + n) else Char.ofNat (87 + n)

/-- Format `%02x` of a byte value. -/
def hex2 (n : Nat) : String :=
  String.mk [hexDigitChar (n / 16 % 16), hexDigitChar (n % 16)]

/-- Format `fmt.Sprintf("%02x%02x:%02x%02x:%02x%02x:%02x%02x::/64", ...)` over the
first eight bytes. -/
def formatV6Subnet (ip : List Nat) : String :=
  hex2 (ip.getD 0 0) ++ hex2 (ip.getD 1 0) ++ ":"
    ++ hex2 (ip.getD 2 0) ++ hex2 (ip.getD 3 0) ++ ":"
    ++ hex2 (ip.getD 4 0) ++ hex2 (ip.getD 5 0) ++ ":"
    ++ hex2 (ip.getD 6 0) ++ hex2 (ip.getD 7 0) ++ "::/64"

/-- Go `getClientSubnet`, applied to the already-extracted client address
string: parse failure falls back to the raw string; `To4` successes collapse
to the `/24`; remaining (16-byte) addresses collapse to the `/64`. -/
def getClientSubnet (ipStr : String) : String :=
  match parseIP ipStr with
  | none => ipStr
  | some ip =>
    match ipTo4 ip with
    | some v4 => formatV4Subnet v4
    | none =>
      match ipTo16 ip with
      | some v6 => formatV6Subnet v6
      | none => ipStr

/-! Section: theorems. -/

/-- Helper: an in-range `getD` is a member of the list. -/
theorem getD_mem_of_lt {l : List Char} {i : Nat} {d : Char} (h : i < l.length) :
    l.getD i d ∈ l := by
  rw [List.getD_eq_getElem l d h]
  exact List.getElem_mem h

/-- Helper: each character of a `genAttempt` draw comes from `allChars`. -/
theorem genAttempt_chars (rnd : Nat → Nat) (n : Nat) :
    ∀ ch ∈ (genAttempt rnd n).data, ch ∈ genAllChars := by
  intro ch hch
  simp only [genAttempt, String.mk] at hch
  rcases List.mem_map.mp hch with ⟨i, _, rfl⟩
  exact getD_mem_of_lt (Nat.mod_lt _ (by decide))

/-- Helper: a `genAttempt` draw has exactly `n` characters. -/
theorem genAttempt_length (rnd : Nat → Nat) (n : Nat) :
    (genAttempt rnd n).length = n := by
  simp [genAttempt, String.length, String.mk]

/-- C7: whenever `genCode` returns, its result is a string of exactly
`length` characters, each drawn from `[a-zA-Z0-9]`, containing at least one
letter and at least one digit — in particular for `length = 6`. -/
theorem genCode_spec (seeds : List (Nat → Nat)) (n : Nat) (c : String)
    (h : genCode seeds n = some c) :
    c.length = n ∧ (∀ ch ∈ c.data, ch ∈ genAllChars)
      ∧ containsLetter c = true ∧ containsDigit c = true := by
  induction seeds with
  | nil => simp [genCode] at h
  | cons r rest ih =>
    simp only [genCode] at h
    by_cases hv : (containsLetter (genAttempt r n) && containsDigit (genAttempt r n)) = true
    · rw [if_pos hv] at h
      obtain ⟨hl, hd⟩ := Bool.and_eq_true_iff.mp hv
      cases h
      exact ⟨genAttempt_length r n, genAttempt_chars r n, hl, hd⟩
    · rw [if_neg hv] at h
      exact ih h

/-- C7 witness: a run whose first draw is rejected (all digits) and whose
second draw is accepted produces `"a00000"`, a 6-character [a-zA-Z0-9]
string with a letter and a digit. -/
theorem genCode_spec_witness :
    "a00000".length = 6 ∧ (∀ ch ∈ "a00000".data, ch ∈ genAllChars)
      ∧ containsLetter "a00000" = true ∧ containsDigit "a00000" = true :=
  genCode_spec [fun _ => 52, fun i => if i == 0 then 0 else 52] 6 "a00000" (by decide)

/-- C9: `listHandler` returns exactly the cache entries whose expiry is
strictly after `now`, and the cache it leaves behind is unchanged (the Go
loop fills a fresh `activeItems` map and never writes `cache`), so
expired-but-present entries are neither returned nor removed. -/
theorem listHandler_spec (cache : Cache) (now : Int) :
    (∀ p, p ∈ (listHandler cache now).1 ↔ p ∈ cache ∧ now < p.2.ExpiresAt)
      ∧ (listHandler cache now).2 = cache := by
  refine ⟨fun p => ?_, rfl⟩
  simp [listHandler, List.mem_filter]

/-- C8: `formatDuration` renders negative durations as `"0 seconds"` and
otherwise the largest applicable unit pair — days+hours from one day up,
else hours+minutes from one hour up, else minutes+seconds from one minute
up, else seconds alone — and renders 90000 seconds as `"1 days 1 hours"`. -/
theorem formatDuration_spec (d : Int) :
    (d < 0 → formatDuration d = "0 seconds")
    ∧ (oneDay ≤ d → formatDuration d =
        toString (d / oneDay) ++ " days " ++ toString (d / oneHour % 24) ++ " hours")
    ∧ (0 ≤ d → d < oneDay → oneHour ≤ d → formatDuration d =
        toString (d / oneHour) ++ " hours " ++ toString (d / oneMinute % 60) ++ " minutes")
    ∧ (0 ≤ d → d < oneHour → oneMinute ≤ d → formatDuration d =
        toString (d / oneMinute) ++ " minutes " ++ toString (d / nsPerSecond % 60) ++ " seconds")
    ∧ (0 ≤ d → d < oneMinute → formatDuration d =
        toString (d / nsPerSecond) ++ " seconds")
    ∧ formatDuration (90000 * nsPerSecond) = "1 days 1 hours" := by
  refine ⟨fun h => ?_, fun h => ?_, fun h0 h1 h2 => ?_, fun h0 h1 h2 => ?_,
    fun h0 h1 => ?_, by decide⟩
  all_goals simp only [formatDuration, oneDay, oneHour, oneMinute, nsPerSecond] at *
  · rw [if_pos h]
  · rw [if_neg (by omega), if_pos (by omega)]
  · rw [if_neg (by omega), if_neg (by omega), if_pos (by omega)]
    have : d / (60 * (60 * 1000000000)) % 24 = d / (60 * (60 * 1000000000)) := by omega
    rw [this]
  · rw [if_neg (by omega), if_neg (by omega), if_neg (by omega), if_pos (by omega)]
    have : d / (60 * 1000000000) % 60 = d / (60 * 1000000000) := by omega
    rw [this]
  · rw [if_neg (by omega), if_neg (by omega), if_neg (by omega), if_neg (by omega)]
    have : d / 1000000000 % 60 = d / 1000000000 := by omega
    rw [this]

/-- C8 witness: the theorem applied at one duration in each regime. -/
theorem formatDuration_spec_witness :
    formatDuration (-1) = "0 seconds"
    ∧ formatDuration (90000 * nsPerSecond)
        = toString (90000 * nsPerSecond / oneDay) ++ " days "
          ++ toString (90000 * nsPerSecond / oneHour % 24) ++ " hours"
    ∧ formatDuration (3661 * nsPerSecond)
        = toString (3661 * nsPerSecond / oneHour) ++ " hours "
          ++ toString (3661 * nsPerSecond / oneMinute % 60) ++ " minutes"
    ∧ formatDuration (61 * nsPerSecond)
        = toString (61 * nsPerSecond / oneMinute) ++ " minutes "
          ++ toString (61 * nsPerSecond / nsPerSecond % 60) ++ " seconds"
    ∧ formatDuration (59 * nsPerSecond)
        = toString (59 * nsPerSecond / nsPerSecond) ++ " seconds" :=
  ⟨(formatDuration_spec (-1)).1 (by decide),
   (formatDuration_spec _).2.1 (by decide),
   (formatDuration_spec _).2.2.1 (by decide) (by decide) (by decide),
   (formatDuration_spec _).2.2.2.1 (by decide) (by decide) (by decide),
   (formatDuration_spec _).2.2.2.2.1 (by decide) (by decide)⟩

/-- The submitted URL's scheme as the specification's words describe it (the
name before the first colon); stated from the spec's words only, to compare
the spec's scheme-based rule against the code's text test. -/
def specScheme (u : String) : String :=
  String.mk (u.data.takeWhile (fun c => c ≠ ':'))

/-- C2 counterexample: `"httpevil://x"` has scheme `httpevil`, neither `http`
nor `https`, yet `shortenHandler` does not reject it — the submitted URL is
persisted and cached, because the code only tests
`strings.HasPrefix(body.URL, "http")`. -/
theorem shorten_scheme_counterexample :
    specScheme "httpevil://x" ≠ "http"
    ∧ specScheme "httpevil://x" ≠ "https"
    ∧ (shortenStep true [] [] "httpevil://x" "ab12cd" "1.2.3.4" "1.2.3.0/24" 0).1
        ≠ ShortenOutcome.badRequest
    ∧ (shortenStep true [] [] "httpevil://x" "ab12cd" "1.2.3.4" "1.2.3.0/24" 0).2.1 ≠ []
    ∧ (shortenStep true [] [] "httpevil://x" "ab12cd" "1.2.3.4" "1.2.3.0/24" 0).2.2 ≠ [] := by
  decide

/-- C2 (amended): a create request that passes the rate limit is rejected
with 400 — persisting and caching nothing — exactly when the submitted URL
does not start with the four characters `http`; URLs with any other scheme
that happens to start with `http` (such as `httpevil://`) are accepted. -/
theorem shorten_reject_spec (dbOK : Bool) (store : Store) (cache : Cache)
    (u code ip subnet : String) (now : Int) (h : urlAccepted u = false) :
    (shortenStep dbOK store cache u code ip subnet now).1 = ShortenOutcome.badRequest
    ∧ (shortenStep dbOK store cache u code ip subnet now).2.1 = store
    ∧ (shortenStep dbOK store cache u code ip subnet now).2.2 = cache := by
  simp [shortenStep, h]

/-- C2 witness: a `ftp://` URL is rejected and nothing is stored. -/
theorem shorten_reject_spec_witness :
    (shortenStep true [] [] "ftp://x" "ab12cd" "9.9.9.9" "9.9.9.0/24" 0).1
        = ShortenOutcome.badRequest
    ∧ (shortenStep true [] [] "ftp://x" "ab12cd" "9.9.9.9" "9.9.9.0/24" 0).2.1 = []
    ∧ (shortenStep true [] [] "ftp://x" "ab12cd" "9.9.9.9" "9.9.9.0/24" 0).2.2 = [] :=
  shorten_reject_spec true [] [] "ftp://x" "ab12cd" "9.9.9.9" "9.9.9.0/24" 0 (by decide)

/-- C4 counterexample: with `"ab12cd"` already persisted, a create whose
generated code is again `"ab12cd"` is inserted anyway — `shortenHandler`
never looks the code up in the store or cache — leaving two records with the
same short code. -/
theorem shorten_duplicate_counterexample :
    (List.countP (fun r => r.ShortCode == "ab12cd")
        [({ Original := "https://first.example", ShortCode := "ab12cd", CreatedAt := 0,
            ExpiresAt := 100, CreatorIP := "1.2.3.4", CreatorSubnet := "1.2.3.0/24" } : URLData)]
      = 1)
    ∧ (List.countP (fun r => r.ShortCode == "ab12cd")
        (shortenStep true
          [{ Original := "https://first.example", ShortCode := "ab12cd", CreatedAt := 0,
             ExpiresAt := 100, CreatorIP := "1.2.3.4", CreatorSubnet := "1.2.3.0/24" }] []
          "https://second.example" "ab12cd" "5.6.7.8" "5.6.7.0/24" 1).2.1
      = 2)
    ∧ (shortenStep true
          [{ Original := "https://first.example", ShortCode := "ab12cd", CreatedAt := 0,
             ExpiresAt := 100, CreatorIP := "1.2.3.4", CreatorSubnet := "1.2.3.0/24" }] []
          "https://second.example" "ab12cd" "5.6.7.8" "5.6.7.0/24" 1).1
      ≠ ShortenOutcome.badRequest := by
  decide

/-- C4 (amended): the create operation checks the generated code against
nothing before insert; on every valid create (URL accepted, insert
succeeding) the number of persisted records bearing that code grows by one,
whether or not the code was already present, so create does not preserve
short-code uniqueness. -/
theorem shorten_no_collision_check (store : Store) (cache : Cache)
    (u code ip subnet : String) (now : Int) :
    List.countP (fun r => r.ShortCode == code)
        (shortenStep true store cache u code ip subnet now).2.1
      = List.countP (fun r => r.ShortCode == code) store
        + (if urlAccepted u then 1 else 0) := by
  simp only [shortenStep, storeInsertOne]
  split
  · simp [List.countP_append, List.countP_cons]
  · simp

/-- C3 counterexample: a cleanup run whose persistent delete fails returns at
once, leaving an expired entry (`ExpiresAt = 0 < 10 = now`) in the cache; and
even a successful run never touches `rateLimitMap` (its sweep belongs to the
separate `startRateLimitCleanup` ticker), leaving a stale subnet entry whose
window is three days old. -/
theorem performCleanup_counterexample :
    (performCleanup true
        { store := [],
          cache := [("ab12cd", { OriginalURL := "https://e.example", ExpiresAt := 0 })],
          rateLimitMap := [("1.2.3.0/24", { Count := 1, FirstSeen := -(3 * oneDay), Cooldown := none })] }
        10
      = { store := [],
          cache := [("ab12cd", { OriginalURL := "https://e.example", ExpiresAt := 0 })],
          rateLimitMap := [("1.2.3.0/24", { Count := 1, FirstSeen := -(3 * oneDay), Cooldown := none })] })
    ∧ ((0:Int) < 10)
    ∧ ((performCleanup false
        { store := [],
          cache := [("ab12cd", { OriginalURL := "https://e.example", ExpiresAt := 0 })],
          rateLimitMap := [("1.2.3.0/24", { Count := 1, FirstSeen := -(3 * oneDay), Cooldown := none })] }
        10).rateLimitMap
      = [("1.2.3.0/24", { Count := 1, FirstSeen := -(3 * oneDay), Cooldown := none })])
    ∧ oneDay < 10 - -(3 * oneDay) := by
  decide

/-- C3 (amended): a periodic cleanup run performs the persistent delete and,
only when it succeeds, the cache sweep; a failed delete aborts the whole run
(the cache keeps even its expired entries), and `performCleanup` never sweeps
the rate limiter — stale subnet entries are removed by the separate hourly
`cleanupRateLimitMap` task. -/
theorem performCleanup_spec (s : CleanupState) (now : Int) :
    (performCleanup true s now = s)
    ∧ ((performCleanup false s now).rateLimitMap = s.rateLimitMap)
    ∧ (∀ p, p ∈ (performCleanup false s now).cache ↔ p ∈ s.cache ∧ now ≤ p.2.ExpiresAt)
    ∧ (∀ r, r ∈ (performCleanup false s now).store ↔ r ∈ s.store ∧ now ≤ r.ExpiresAt)
    ∧ (∀ q, q ∈ cleanupRateLimitMap s.rateLimitMap now
         ↔ q ∈ s.rateLimitMap ∧ now - q.2.FirstSeen ≤ oneDay) := by
  refine ⟨rfl, rfl, fun p => ?_, fun r => ?_, fun q => ?_⟩
  · simp [performCleanup, List.mem_filter, not_lt]
  · simp [performCleanup, storeDeleteExpired, List.mem_filter, not_lt]
  · simp [cleanupRateLimitMap, List.mem_filter, not_lt]

/-- C10: whenever `checkRateLimit` denies without an error, the returned
subnet state carries a nonzero cooldown timestamp strictly in the future, so
a 429 response can always report `cooldown_until` and a non-negative
`cooldown_remaining`. -/
theorem checkRateLimit_denial_cooldown (mem : Option RateLimitInfo)
    (dbCount : Except Unit Int) (now : Int) (info : RateLimitInfo)
    (h : checkRateLimit mem dbCount now = .ok (false, info)) :
    ∃ c, info.Cooldown = some c ∧ now < c := by
  have hcd : (0:Int) < cooldownHours * oneHour := by decide
  match mem with
  | some info0 =>
    simp only [checkRateLimit, Except.ok.injEq] at h
    by_cases hr : oneDay ≤ now - info0.FirstSeen
    · simp only [checkRateLimitMem, if_pos hr, cooldownActive, cooldownElapsed,
        maxURLsPerSubnet] at h
      norm_num at h
    · simp only [checkRateLimitMem, if_neg hr] at h
      by_cases hact : cooldownActive info0.Cooldown now = true
      · rw [if_pos hact, Prod.mk.injEq] at h
        obtain ⟨-, h2⟩ := h
        subst h2
        rcases h1 : info0.Cooldown with _ | cd
        · rw [h1] at hact
          simp [cooldownActive] at hact
        · refine ⟨cd, rfl, ?_⟩
          rw [h1] at hact
          simpa [cooldownActive] using hact
      · rw [if_neg hact] at h
        by_cases hel : cooldownElapsed info0.Cooldown now = true
        · rw [if_pos hel] at h
          by_cases hmax : maxURLsPerSubnet ≤ ({ info0 with Cooldown := none } : RateLimitInfo).Count
          · rw [if_pos hmax, Prod.mk.injEq] at h
            obtain ⟨-, h2⟩ := h
            subst h2
            exact ⟨now + cooldownHours * oneHour, rfl, by omega⟩
          · rw [if_neg hmax] at h
            simp at h
        · rw [if_neg hel] at h
          by_cases hmax : maxURLsPerSubnet ≤ info0.Count
          · rw [if_pos hmax, Prod.mk.injEq] at h
            obtain ⟨-, h2⟩ := h
            subst h2
            exact ⟨now + cooldownHours * oneHour, rfl, by omega⟩
          · rw [if_neg hmax] at h
            simp at h
  | none =>
    match dbCount with
    | .error e => simp [checkRateLimit] at h
    | .ok count =>
      simp only [checkRateLimit] at h
      by_cases hmax : maxURLsPerSubnet ≤ count
      · rw [if_pos hmax, Except.ok.injEq, Prod.mk.injEq] at h
        obtain ⟨-, h2⟩ := h
        subst h2
        exact ⟨now + cooldownHours * oneHour, rfl, by omega⟩
      · rw [if_neg hmax] at h
        simp at h

/-- C10 witness: a subnet at the limit is denied with the cooldown set to a
strictly future instant. -/
theorem checkRateLimit_denial_cooldown_witness :
    ∃ c, ({ Count := 10, FirstSeen := 0, Cooldown := some (cooldownHours * oneHour) }
            : RateLimitInfo).Cooldown = some c ∧ (0:Int) < c :=
  checkRateLimit_denial_cooldown (some { Count := 10, FirstSeen := 0, Cooldown := none })
    (.ok 0) 0 _ (by rfl)

/-- C1 counterexample: a subnet whose window opened at time 0 makes ten
successful creations (nine at time 0, the tenth at one hour), so the tenth
commit sets the cooldown to 25 hours; yet the very next attempt at hour 24 —
one hour before that cooldown elapses — is admitted, because the 24-hour
window reset in `checkRateLimit` clears the count and the cooldown first. -/
theorem rateLimit_cooldown_counterexample :
    (List.foldl (fun m t => (rlCreate m (.ok 0) t).1) none (List.replicate 9 0 ++ [oneHour])
      = some { Count := 10, FirstSeen := 0, Cooldown := some (25 * oneHour) })
    ∧ ((rlCreate (some { Count := 10, FirstSeen := 0, Cooldown := some (25 * oneHour) })
          (.ok 0) oneDay).2 = true)
    ∧ oneDay < 25 * oneHour := by
  decide

/-- C1 (amended): once ten committed creations put a subnet at the limit
(count at the max, cooldown set by the commit to a time at or past the end
of the 24-hour window that started at `FirstSeen`), `checkRateLimit` denies
every attempt exactly while that window is still current — i.e. until
24 hours after `FirstSeen`, which arrives at or before the cooldown's end;
when the window expires the state resets and attempts are admitted again
even though the cooldown timestamp may still lie in the future. -/
theorem rateLimit_denied_until_window (info : RateLimitInfo) (now cd : Int)
    (hcd : info.Cooldown = some cd)
    (hcount : maxURLsPerSubnet ≤ info.Count)
    (hwin : info.FirstSeen + oneDay ≤ cd) :
    (checkRateLimitMem info now).1 = false ↔ now < info.FirstSeen + oneDay := by
  rw [checkRateLimitMem]
  by_cases hreset : oneDay ≤ now - info.FirstSeen
  · rw [if_pos hreset]
    simp only [cooldownActive, cooldownElapsed, maxURLsPerSubnet]
    norm_num
    omega
  · rw [if_neg hreset]
    have hact : cooldownActive info.Cooldown now = true := by
      rw [hcd]
      simp only [cooldownActive, decide_eq_true_eq]
      omega
    rw [if_pos hact]
    simp only [true_iff]
    omega

/-- C1 witness: the at-limit state from the counterexample is denied at hour
one (inside the window) and the denial condition is exactly the window. -/
theorem rateLimit_denied_until_window_witness :
    ((checkRateLimitMem { Count := 10, FirstSeen := 0, Cooldown := some (25 * oneHour) }
        oneHour).1 = false ↔ oneHour < 0 + oneDay) :=
  rateLimit_denied_until_window
    { Count := 10, FirstSeen := 0, Cooldown := some (25 * oneHour) }
    oneHour (25 * oneHour) rfl (by decide) (by decide)

/-- Helper: erasing the first match from a list with at most one match
leaves a list with no match. -/
theorem find?_eraseP_of_countP_le_one {α : Type} (p : α → Bool) (l : List α)
    (h : List.countP p l ≤ 1) : List.find? p (List.eraseP p l) = none := by
  induction l with
  | nil => rfl
  | cons a l ih =>
    by_cases hp : p a = true
    · rw [List.eraseP_cons_of_pos hp]
      rw [List.countP_cons_of_pos p l hp] at h
      have h0 : List.countP p l = 0 := by omega
      rw [List.find?_eq_none]
      intro x hx
      exact List.countP_eq_zero.mp h0 x hx
    · rw [List.eraseP_cons_of_neg hp]
      rw [List.find?_cons_of_neg _ hp]
      rw [List.countP_cons_of_neg p l hp] at h
      exact ih h

/-- C5: for a well-formed code, a cache hit strictly before expiry redirects
(302) and changes nothing; a cache hit at or past expiry deletes the entry
and falls through to the store phase; a cache miss goes to the store phase;
there, an unexpired record is backfilled into the cache and redirected, an
expired record is deleted from the store (after which, if the code was
stored at most once, it is no longer found) with not-found, and an absent
code is not-found with nothing changed. -/
theorem redirectHandler_spec (cache : Cache) (store : Store) (code : String) (now : Int) :
    (∀ c, cacheLookup cache code = some c → now < c.ExpiresAt →
       redirectHandler cache store code now = (.redirect c.OriginalURL, cache, store))
    ∧ (∀ c, cacheLookup cache code = some c → c.ExpiresAt ≤ now →
       redirectHandler cache store code now
         = redirectStorePhase (cacheDelete cache code) store code now)
    ∧ (cacheLookup cache code = none →
       redirectHandler cache store code now = redirectStorePhase cache store code now)
    ∧ (∀ u, storeFindOne store code = some u → now < u.ExpiresAt →
       redirectStorePhase cache store code now
         = (.redirect u.Original, cacheInsert cache code ⟨u.Original, u.ExpiresAt⟩, store))
    ∧ (∀ u, storeFindOne store code = some u → u.ExpiresAt ≤ now →
       (redirectStorePhase cache store code now).1 = .notFound
       ∧ (redirectStorePhase cache store code now).2.1 = cache
       ∧ (redirectStorePhase cache store code now).2.2 = storeDeleteOne store code
       ∧ (List.countP (fun r => r.ShortCode == code) store ≤ 1 →
            storeFindOne (redirectStorePhase cache store code now).2.2 code = none))
    ∧ (storeFindOne store code = none →
       redirectStorePhase cache store code now = (.notFound, cache, store)) := by
  refine ⟨fun c hc hlt => ?_, fun c hc hle => ?_, fun hc => ?_, fun u hu hlt => ?_,
    fun u hu hle => ?_, fun hu => ?_⟩
  · simp only [redirectHandler, hc]
    rw [if_pos hlt]
  · simp only [redirectHandler, hc]
    rw [if_neg (not_lt.mpr hle)]
  · simp only [redirectHandler, hc]
  · simp only [redirectStorePhase, hu]
    rw [if_pos hlt]
  · simp only [redirectStorePhase, hu]
    rw [if_neg (not_lt.mpr hle)]
    refine ⟨rfl, rfl, rfl, fun hcount => ?_⟩
    exact find?_eraseP_of_countP_le_one _ _ hcount
  · simp only [redirectStorePhase, hu]

/-- C5 witness: the theorem applied through each of its cases at concrete
cache/store states. -/
theorem redirectHandler_spec_witness :
    (redirectHandler [("ab12cd", { OriginalURL := "https://t.example", ExpiresAt := 10 })]
        [] "ab12cd" 5
      = (.redirect "https://t.example",
         [("ab12cd", { OriginalURL := "https://t.example", ExpiresAt := 10 })], []))
    ∧ (redirectHandler [("ab12cd", { OriginalURL := "https://t.example", ExpiresAt := 10 })]
        [] "ab12cd" 10
      = redirectStorePhase
          (cacheDelete [("ab12cd", { OriginalURL := "https://t.example", ExpiresAt := 10 })]
            "ab12cd")
          [] "ab12cd" 10)
    ∧ (redirectHandler [] [] "ab12cd" 5 = redirectStorePhase [] [] "ab12cd" 5)
    ∧ (redirectStorePhase []
        [{ Original := "https://t.example", ShortCode := "ab12cd", CreatedAt := 0,
           ExpiresAt := 10, CreatorIP := "1.2.3.4", CreatorSubnet := "1.2.3.0/24" }]
        "ab12cd" 5
      = (.redirect "https://t.example",
         cacheInsert [] "ab12cd" { OriginalURL := "https://t.example", ExpiresAt := 10 },
         [{ Original := "https://t.example", ShortCode := "ab12cd", CreatedAt := 0,
            ExpiresAt := 10, CreatorIP := "1.2.3.4", CreatorSubnet := "1.2.3.0/24" }]))
    ∧ ((redirectStorePhase []
        [{ Original := "https://t.example", ShortCode := "ab12cd", CreatedAt := 0,
           ExpiresAt := 10, CreatorIP := "1.2.3.4", CreatorSubnet := "1.2.3.0/24" }]
        "ab12cd" 10).1 = .notFound
      ∧ (redirectStorePhase []
        [{ Original := "https://t.example", ShortCode := "ab12cd", CreatedAt := 0,
           ExpiresAt := 10, CreatorIP := "1.2.3.4", CreatorSubnet := "1.2.3.0/24" }]
        "ab12cd" 10).2.1 = []
      ∧ (redirectStorePhase []
        [{ Original := "https://t.example", ShortCode := "ab12cd", CreatedAt := 0,
           ExpiresAt := 10, CreatorIP := "1.2.3.4", CreatorSubnet := "1.2.3.0/24" }]
        "ab12cd" 10).2.2
        = storeDeleteOne
            [{ Original := "https://t.example", ShortCode := "ab12cd", CreatedAt := 0,
               ExpiresAt := 10, CreatorIP := "1.2.3.4", CreatorSubnet := "1.2.3.0/24" }]
            "ab12cd"
      ∧ storeFindOne (redirectStorePhase []
          [{ Original := "https://t.example", ShortCode := "ab12cd", CreatedAt := 0,
             ExpiresAt := 10, CreatorIP := "1.2.3.4", CreatorSubnet := "1.2.3.0/24" }]
          "ab12cd" 10).2.2 "ab12cd" = none)
    ∧ (redirectStorePhase [] [] "ab12cd" 5 = (.notFound, [], [])) := by
  refine ⟨(redirectHandler_spec
            [("ab12cd", { OriginalURL := "https://t.example", ExpiresAt := 10 })] [] "ab12cd" 5).1
            { OriginalURL := "https://t.example", ExpiresAt := 10 } rfl (by decide),
          (redirectHandler_spec
            [("ab12cd", { OriginalURL := "https://t.example", ExpiresAt := 10 })] [] "ab12cd" 10).2.1
            { OriginalURL := "https://t.example", ExpiresAt := 10 } rfl (by decide),
          (redirectHandler_spec [] [] "ab12cd" 5).2.2.1 rfl,
          (redirectHandler_spec []
            [{ Original := "https://t.example", ShortCode := "ab12cd", CreatedAt := 0,
               ExpiresAt := 10, CreatorIP := "1.2.3.4", CreatorSubnet := "1.2.3.0/24" }]
            "ab12cd" 5).2.2.2.1
            { Original := "https://t.example", ShortCode := "ab12cd", CreatedAt := 0,
              ExpiresAt := 10, CreatorIP := "1.2.3.4", CreatorSubnet := "1.2.3.0/24" }
            rfl (by decide),
          ?_,
          (redirectHandler_spec [] [] "ab12cd" 5).2.2.2.2.2 rfl⟩
  have h := (redirectHandler_spec []
    [{ Original := "https://t.example", ShortCode := "ab12cd", CreatedAt := 0,
       ExpiresAt := 10, CreatorIP := "1.2.3.4", CreatorSubnet := "1.2.3.0/24" }]
    "ab12cd" 10).2.2.2.2.1
    { Original := "https://t.example", ShortCode := "ab12cd", CreatedAt := 0,
      ExpiresAt := 10, CreatorIP := "1.2.3.4", CreatorSubnet := "1.2.3.0/24" }
    rfl (by decide)
  exact ⟨h.1, h.2.1, h.2.2.1, h.2.2.2 (by decide)⟩

/-- Helper: a successful IPv4 parse yields exactly four octets. -/
theorem parseIPv4_length (s : List Char) (v4 : List Nat) (h : parseIPv4 s = some v4) :
    v4.length = 4 := by
  rw [parseIPv4] at h
  split at h
  · split at h
    · cases h
      rfl
    · cases h
  · cases h

/-- Helper: the post-loop expansion returns a 16-byte address. -/
theorem v6Finish_length (acc : List Nat) (ell : Option Nat) (ip : List Nat)
    (hle : acc.length ≤ 16) (h : v6Finish acc ell = some ip) : ip.length = 16 := by
  unfold v6Finish at h
  split at h
  · split at h
    · cases h
    · cases h
      simp only [List.length_append, List.length_take, List.length_replicate,
        List.length_drop]
      omega
  · split at h
    · cases h
      omega
    · cases h

/-- Helper: the IPv6 field loop, entered with an even number of at most
sixteen bytes accumulated, returns a 16-byte address. -/
theorem v6Loop_length (fuel : Nat) : ∀ (s : List Char) (acc : List Nat) (ell : Option Nat)
    (ip : List Nat), acc.length % 2 = 0 → acc.length ≤ 16 → v6Loop fuel s acc ell = some ip →
    ip.length = 16 := by
  induction fuel with
  | zero =>
    intro s acc ell ip _ _ h
    exact absurd h (by simp [v6Loop])
  | succ fuel ih =>
    intro s acc ell ip hpar hle h
    rw [v6Loop] at h
    split at h
    · split at h
      · exact v6Finish_length _ _ _ hle h
      · cases h
    · split at h
      · cases h
      · split at h
        · cases h
        · split at h
          · split at h
            · cases h
            · split at h
              · cases h
              · split at h
                · cases h
                · rename_i v4 hv4
                  refine v6Finish_length _ _ _ ?_ h
                  have h4 := parseIPv4_length _ _ hv4
                  simp only [List.length_append]
                  omega
          · split at h
            · refine v6Finish_length _ _ _ ?_ h
              simp only [List.length_append, List.length_cons, List.length_nil]
              omega
            · split at h
              · cases h
              · split at h
                · cases h
                · split at h
                  · cases h
                  · split at h
                    · split at h
                      · cases h
                      · split at h
                        · refine v6Finish_length _ _ _ ?_ h
                          simp only [List.length_append, List.length_cons, List.length_nil]
                          omega
                        · refine ih _ _ _ _ ?_ ?_ h
                          · simp only [List.length_append, List.length_cons, List.length_nil]
                            omega
                          · simp only [List.length_append, List.length_cons, List.length_nil]
                            omega
                    · refine ih _ _ _ _ ?_ ?_ h
                      · simp only [List.length_append, List.length_cons, List.length_nil]
                        omega
                      · simp only [List.length_append, List.length_cons, List.length_nil]
                        omega

/-- Helper: a successful IPv6 parse yields a 16-byte address. -/
theorem parseIPv6_length (s : List Char) (ip : List Nat) (h : parseIPv6 s = some ip) :
    ip.length = 16 := by
  unfold parseIPv6 at h
  split at h
  · split at h
    · cases h
      simp
    · exact v6Loop_length 16 _ _ _ _ (by simp) (by simp) h
  · exact v6Loop_length 16 _ _ _ _ (by simp) (by simp) h

/-- Helper: `net.ParseIP` always returns its result in 16-byte form. -/
theorem parseIP_length (s : String) (ip : List Nat) (h : parseIP s = some ip) :
    ip.length = 16 := by
  rw [parseIP] at h
  split at h
  · split_ifs at h
    · rcases Option.map_eq_some'.mp h with ⟨v4, hv4, rfl⟩
      have h4 := parseIPv4_length _ _ hv4
      simp only [v4InV6, List.length_append, List.length_replicate, List.length_cons,
        List.length_nil]
      omega
    · exact parseIPv6_length _ _ h
  · cases h

/-- Helper: positions below `n` agree between lists with equal `take n`. -/
theorem getD_eq_of_take_eq {l1 l2 : List Nat} {n i : Nat} (h : l1.take n = l2.take n)
    (hi : i < n) : l1.getD i 0 = l2.getD i 0 := by
  have h1 : l1[i]? = l2[i]? := by
    have h2 := congrArg (fun l => l[i]?) h
    simpa [List.getElem?_take, hi] using h2
  simp [List.getD_eq_getElem?_getD, h1]

/-- Helper: the `/64` rendering reads only the first eight bytes. -/
theorem formatV6Subnet_take_eq (ip1 ip2 : List Nat) (h : ip1.take 8 = ip2.take 8) :
    formatV6Subnet ip1 = formatV6Subnet ip2 := by
  rw [formatV6Subnet, formatV6Subnet]
  rw [getD_eq_of_take_eq h (by omega), getD_eq_of_take_eq h (by omega),
    getD_eq_of_take_eq h (by omega), getD_eq_of_take_eq h (by omega),
    getD_eq_of_take_eq h (by omega), getD_eq_of_take_eq h (by omega),
    getD_eq_of_take_eq h (by omega), getD_eq_of_take_eq h (by omega)]

/-- C6: `getClientSubnet` is a function of the raw address whose value is
determined as the claim states: an address parsing to IPv4 (`To4`
succeeding) maps to its first three octets followed by `.0/24` — so any two
addresses whose IPv4 forms share their first three octets get the same key;
an address parsing to a non-IPv4 (16-byte) form maps to its first eight
bytes in the `%02x`-pair `::/64` format, which reads nothing beyond those
eight bytes; an unparseable input maps to the raw string itself. -/
theorem getClientSubnet_spec (s : String) :
    (∀ ip v4, parseIP s = some ip → ipTo4 ip = some v4 →
       getClientSubnet s = toString (v4.getD 0 0) ++ "." ++ toString (v4.getD 1 0)
         ++ "." ++ toString (v4.getD 2 0) ++ ".0/24")
    ∧ (∀ ip, parseIP s = some ip → ipTo4 ip = none →
       getClientSubnet s = formatV6Subnet ip)
    ∧ (parseIP s = none → getClientSubnet s = s)
    ∧ (∀ t ip ipt v4 v4t, parseIP s = some ip → ipTo4 ip = some v4 →
       parseIP t = some ipt → ipTo4 ipt = some v4t → v4.take 3 = v4t.take 3 →
       getClientSubnet s = getClientSubnet t)
    ∧ (∀ ip1 ip2, ip1.take 8 = ip2.take 8 → formatV6Subnet ip1 = formatV6Subnet ip2) := by
  have key : ∀ ip v4, parseIP s = some ip → ipTo4 ip = some v4 →
      getClientSubnet s = toString (v4.getD 0 0) ++ "." ++ toString (v4.getD 1 0)
        ++ "." ++ toString (v4.getD 2 0) ++ ".0/24" := by
    intro ip v4 hp h4
    simp only [getClientSubnet, hp, h4]
    rfl
  refine ⟨key, fun ip hp h4 => ?_, fun hp => ?_, fun t ip ipt v4 v4t hp h4 hpt h4t htake => ?_,
    formatV6Subnet_take_eq⟩
  · have hlen := parseIP_length s ip hp
    simp only [getClientSubnet, hp, h4, ipTo16, hlen]
    norm_num
  · simp only [getClientSubnet, hp]
  · have keyt : getClientSubnet t = toString (v4t.getD 0 0) ++ "." ++ toString (v4t.getD 1 0)
        ++ "." ++ toString (v4t.getD 2 0) ++ ".0/24" := by
      simp only [getClientSubnet, hpt, h4t]
      rfl
    rw [key ip v4 hp h4, keyt, getD_eq_of_take_eq htake (by omega),
      getD_eq_of_take_eq htake (by omega), getD_eq_of_take_eq htake (by omega)]

/-- C6 witness: the theorem applied to two addresses in `10.1.2.0/24`, an
IPv6 address, and an unparseable string. -/
theorem getClientSubnet_spec_witness :
    (getClientSubnet "10.1.2.3" = toString ((10:Nat)) ++ "." ++ toString ((1:Nat))
       ++ "." ++ toString ((2:Nat)) ++ ".0/24")
    ∧ getClientSubnet "10.1.2.3" = getClientSubnet "10.1.2.250"
    ∧ getClientSubnet "2001:db8::1"
        = formatV6Subnet [32, 1, 13, 184, 0, 0, 0, 0, 0, 0, 0, 0, 0, 0, 0, 1]
    ∧ getClientSubnet "not-an-ip" = "not-an-ip" := by
  refine ⟨?_, ?_, ?_, (getClientSubnet_spec "not-an-ip").2.2.1 (by decide)⟩
  · have h := (getClientSubnet_spec "10.1.2.3").1
      (v4InV6 [10, 1, 2, 3]) [10, 1, 2, 3] (by decide) (by decide)
    simpa using h
  · exact (getClientSubnet_spec "10.1.2.3").2.2.2.1 "10.1.2.250"
      (v4InV6 [10, 1, 2, 3]) (v4InV6 [10, 1, 2, 250]) [10, 1, 2, 3] [10, 1, 2, 250]
      (by decide) (by decide) (by decide) (by decide) (by decide)
  · exact (getClientSubnet_spec "2001:db8::1").2.1
      [32, 1, 13, 184, 0, 0, 0, 0, 0, 0, 0, 0, 0, 0, 0, 1] (by decide) (by decide)

end UrlShortener
